import Mathlib

/-!
Verification development for the sasmodels comparison driver
(sasmodels/compare.py): a shallow embedding of the randomization,
constraint-repair, timing and statistical-comparison pipeline, together
with theorems settling the specification claims about it.

Numbers are modelled as exact rationals; numpy floating-point values in
the source are translated to the corresponding exact arithmetic.
Python dictionaries are modelled as association lists with
first-occurrence lookup and update-or-append assignment.  Python strings
are Lean strings, with the suffix, the leading-substring and the
containment tests implemented over the underlying character lists.
-/

namespace SasCompare

/-! ### String helpers (Python str.endswith, str.startswith, the in operator) -/

/-- Model of the Python test p.endswith(suf), over code points. -/
def strEndsWith (p suf : String) : Bool :=
  suf.data.isSuffixOf p.data

/-- Model of the Python test p.startswith(pre), over code points. -/
def strStartsWith (p pre : String) : Bool :=
  pre.data.isPrefixOf p.data

/-- Model of the Python containment test sub in p, over code points. -/
def strContainsSub (p sub : String) : Bool :=
  decide (sub.data <:+: p.data)

/-- Model of the Python slice p[:-n] (drop the last n code points). -/
def strDropRight (p : String) (n : Nat) : String :=
  ⟨p.data.take (p.data.length - n)⟩

/-! ### Parameter values and parameter sets

A parameter set is a Python dict mapping parameter keys to values; values
are floats or strings (the dispersion-shape tag).  The dict is modelled
as an association list: lookup returns the first matching entry, and
assignment replaces the first matching entry or appends a new one.
-/

/-- A value stored in a parameter set: a number or a string tag. -/
inductive PVal where
  | num : ℚ → PVal
  | str : String → PVal
deriving DecidableEq

/-- A parameter set (Python dict from key to value). -/
abbrev Pars := List (String × PVal)

/-- Dict lookup: first entry with the given key. -/
def dget : Pars → String → Option PVal
  | [], _ => none
  | (k', v) :: rest, k => if k' = k then some v else dget rest k

/-- Dict assignment: replace the first entry with the given key, or append. -/
def dset : Pars → String → PVal → Pars
  | [], k, v => [(k, v)]
  | (k', v') :: rest, k, v =>
    if k' = k then (k, v) :: rest else (k', v') :: dset rest k v

/-- Numeric lookup: the value at a key when present and numeric. -/
def getQ? (pars : Pars) (k : String) : Option ℚ :=
  match dget pars k with
  | some (.num q) => some q
  | _ => none

/-- Numeric lookup with a default (Python pars.get(k, d) for numeric use). -/
def getQD (pars : Pars) (k : String) (d : ℚ) : ℚ :=
  (getQ? pars k).getD d

/-- Model of the Python int() conversion: truncation toward zero. -/
def pyInt (q : ℚ) : ℤ :=
  q.num.tdiv q.den

deriving instance DecidableEq for Except

/-! ### parameter_range (compare.py lines 264-293)

Chooses a sampling interval from the parameter name and current value.
The branch raising ValueError for a dispersion-shape name is modelled
with Except.
-/

/-- Embedding of compare.parameter_range. -/
def parameter_range (p : String) (v : ℚ) : Except String (ℚ × ℚ) :=
  if strEndsWith p "_pd_n" then .ok (0, 100)
  else if strEndsWith p "_pd_nsigma" then .ok (0, 5)
  else if strEndsWith p "_pd_type" then
    .error "Cannot return a range for a string value"
  else if strContainsSub p "theta" || strContainsSub p "phi"
      || strContainsSub p "psi" then
    -- orientation in [-180,180], orientation pd in [0,45]
    if strEndsWith p "_pd" then .ok (0, 45) else .ok (-180, 180)
  else if strEndsWith p "_pd" then .ok (0, 1)
  else if strContainsSub p "sld" then .ok (-(1/2), 10)
  else if p = "background" then .ok (0, 10)
  else if p = "scale" then .ok (0, 1000)
  else if v < 0 then .ok (2*v, -(2*v))
  else .ok (0, if v > 0 then 2*v else 1)

/-! ### Seed scope: push_seed (compare.py lines 162-232)

The global numpy random-number-generator state is modelled by an
abstract state type.  np.random.seed applied to an integer puts the
generator into a state determined by that integer alone; applied to
None it reseeds from fresh operating-system entropy, modelled here by an
explicit entropy parameter.  A protected block is a state transformer
that can fail; the with statement runs it between init and exit.
-/

section SeedScope

variable {σ ε : Type}

/-- Model of np.random.seed: a given integer seed determines the new
state; a missing seed draws a fresh state from OS entropy. -/
def np_seed (seedFn : ℕ → σ) (entropy : σ) : Option ℕ → σ
  | some n => seedFn n
  | none => entropy

/-- Embedding of push_seed.__init__: record the current global state,
then call np.random.seed(seed).  Returns the pair of the saved state
and the new global state. -/
def push_seed_init (seedFn : ℕ → σ) (entropy : σ) (seed : Option ℕ)
    (s : σ) : σ × σ :=
  (s, np_seed seedFn entropy seed)

/-- Embedding of the with push_seed(seed) statement: acquire, run the
protected block from the post-acquisition state, and on both exit paths
run push_seed.__exit__, which restores the saved state.  The result
records whether the block failed, together with the final global
state. -/
def push_seed_scope (seedFn : ℕ → σ) (entropy : σ) (seed : Option ℕ)
    (body : σ → Except ε σ) (s : σ) : Except ε Unit × σ :=
  let saved := (push_seed_init seedFn entropy seed s).1
  match body (push_seed_init seedFn entropy seed s).2 with
  | .ok _ => (.ok (), saved)
  | .error e => (.error e, saved)

/-- Two successive draws from the generator with an arbitrary action
run between them; used to state that a nested scope does not disturb
the enclosing draw sequence. -/
def draw_pair (next : σ → ℕ × σ) (between : σ → σ) (s : σ) : ℕ × ℕ :=
  let (v1, s1) := next s
  let (v2, _) := next (between s1)
  (v1, v2)

end SeedScope

/-! ### Comparison statistics: _print_stats (compare.py lines 894-911)

The error array is a numpy masked array; it is modelled as a list of
value-validity pairs, the Boolean being true exactly for the unmasked
(valid) entries, so that compressed() is a filter.  The function prints
a line of statistics, modelled as a structure; when no entry is valid
it prints the no-valid-values message instead, modelled as none.  numpy
sort is a sort in ascending order.  The rms field holds the quantity
under the square root, mean(sorted_err**2); the printed rms is its
square root, which determines and is determined by this field.  The
float literal 0.50 is exactly 1/2; 0.98 is modelled by 98/100.
-/

/-- The statistics line printed by _print_stats. -/
structure ErrStats where
  max : ℚ
  median : ℚ
  p98 : ℚ
  rmsSq : ℚ
  zeroOffset : ℚ
deriving DecidableEq

/-- Ascending sort of rationals (np.sort). -/
def sortQ (l : List ℚ) : List ℚ :=
  List.insertionSort (· ≤ ·) l

/-- Embedding of compare._print_stats. -/
def _print_stats (err : List (ℚ × Bool)) : Option ErrStats :=
  let sorted_err := sortQ ((err.filter fun x => x.2).map fun x => |x.1|)
  if sorted_err.length = 0 then none
  else
    let n := sorted_err.length
    let p50 := (pyInt (((n : ℚ) - 1) * (50/100))).toNat
    let p98 := (pyInt (((n : ℚ) - 1) * (98/100))).toNat
    some { max := sorted_err.getLastD 0
         , median := sorted_err.getD p50 0
         , p98 := sorted_err.getD p98 0
         , rmsSq := ((sorted_err.map fun x => x^2).sum) / n
         , zeroOffset := sorted_err.sum / n }

/-! ### Comparison engine: run_models (compare.py lines 841-891)

Each side of the comparison is driven through time_calculation, whose
outcome is either a value-time pair or a raised error; only ImportError
is caught by the function, leaving that side unset.  Outputs are passed
through np.ma.masked_invalid, which over exact rationals masks nothing.
When a comparison calculator was supplied, the residual is computed as
base_value - comp_value; if either operand is still None, that numpy
subtraction raises TypeError, which nothing in the function catches.
-/

/-- The errors a calculation can raise inside run_models. -/
inductive PyErr where
  | importError : PyErr
  | typeError : PyErr
deriving DecidableEq

/-- The result dictionary returned by run_models. -/
structure RunResult where
  base_value : Option (List ℚ)
  comp_value : Option (List ℚ)
  base_time : Option ℚ
  comp_time : Option ℚ
  resid : Option (List ℚ)
  relerr : Option (List ℚ)
deriving DecidableEq

/-- The try/except ImportError block around one side of run_models:
an ImportError is caught (the traceback printed) and the side stays
unset; any other error propagates. -/
def catchImport (r : Except PyErr (List ℚ × ℚ)) :
    Except PyErr (Option (List ℚ × ℚ)) :=
  match r with
  | .ok v => .ok (some v)
  | .error .importError => .ok none
  | .error e => .error e

/-- Embedding of compare.run_models.  The two calculators together with
their time_calculation runs are abstracted as their outcomes: a
value-time pair or a raised error; comp is None when no comparison
calculator was requested. -/
def run_models (base : Except PyErr (List ℚ × ℚ))
    (comp : Option (Except PyErr (List ℚ × ℚ))) : Except PyErr RunResult := do
  -- Base calculation
  let bv ← catchImport base
  let base_value := bv.map Prod.fst
  let base_time := bv.map Prod.snd
  -- Comparison calculation
  let cv : Option (List ℚ × ℚ) ←
    match comp with
    | none => pure none
    | some c => catchImport c
  let comp_value := cv.map Prod.fst
  let comp_time := cv.map Prod.snd
  -- Compare, but only if computing both forms
  if comp.isSome then
    match base_value, comp_value with
    | some b, some c =>
      let resid := List.zipWith (· - ·) b c
      let relerr := List.zipWith (· / ·) resid
        (c.map fun x => if x ≠ 0 then |x| else 1)
      pure { base_value, comp_value, base_time, comp_time,
             resid := some resid, relerr := some relerr }
    | _, _ => throw .typeError
  else
    pure { base_value, comp_value, base_time, comp_time,
           resid := none, relerr := none }

/-! ### suppress_pd and suppress_magnetism (compare.py lines 538-593)

Both copy the parameter set and update the copy; the suppress branch of
the Python loop assigns zero at every matching key, which on the dict
model is a value map over the entries.
-/

/-- Embedding of compare.suppress_pd. -/
def suppress_pd (pars : Pars) (suppress : Bool) : Pars :=
  if suppress then
    pars.map fun kv =>
      if strEndsWith kv.1 "_pd_n" then (kv.1, PVal.num 0) else kv
  else
    let any_pd := pars.any fun kv =>
      strEndsWith kv.1 "_pd_n"
        && decide (kv.2 ≠ PVal.num 0)
        && decide ((dget pars (strDropRight kv.1 2)).getD (PVal.num 0)
                     ≠ PVal.num 0)
    let first_pd := (pars.find? fun kv => strEndsWith kv.1 "_pd_n").map Prod.fst
    match first_pd with
    | none => pars
    | some fp =>
      if any_pd then pars
      else
        let pars1 :=
          if dget pars fp = some (PVal.num 0)
          then dset pars fp (PVal.num 35) else pars
        let pw := strDropRight fp 2
        if dget pars1 pw = none ∨ dget pars1 pw = some (PVal.num 0)
        then dset pars1 pw (PVal.num (15/100)) else pars1

/-- Embedding of compare.suppress_magnetism. -/
def suppress_magnetism (pars : Pars) (suppress : Bool) : Pars :=
  if suppress then
    pars.map fun kv =>
      if strStartsWith kv.1 "M0:" then (kv.1, PVal.num 0) else kv
  else
    let any_mag := pars.any fun kv =>
      strStartsWith kv.1 "M0:" && decide (kv.2 ≠ PVal.num 0)
    let first_mag := (pars.find? fun kv => strStartsWith kv.1 "M0:").map Prod.fst
    match first_mag with
    | none => pars
    | some fm => if any_mag then pars else dset pars fm (PVal.num 8)

/-! ### time_calculation (compare.py lines 741-759)

The calculator is an abstract capability: calling it produces an output
array and advances an abstract world (which carries whatever the
backend and the wall clock depend on); clock reads the current time in
seconds from the world.  Besides the value-time pair returned by the
source function, the embedding also returns the final world and the
ordered list of parameter sets the calculator was called with, as the
observable trace of the calls the function performs.
-/

section TimedEvaluator

variable {W : Type}

/-- The timed evaluation loop: for _ in range(k): value = calculator(**pars),
returning the last value, the final world and the trace of calls. -/
def timeLoop (calculator : Pars → W → List ℚ × W) (pars : Pars) :
    ℕ → List ℚ → W → List ℚ × W × List Pars
  | 0, v, w => (v, w, [])
  | k+1, _, w =>
    let c := calculator pars w
    let r := timeLoop calculator pars k c.1 c.2
    (r.1, r.2.1, pars :: r.2.2)

/-- Embedding of compare.time_calculation. -/
def time_calculation (clock : W → ℚ) (calculator : Pars → W → List ℚ × W)
    (pars : Pars) (evals : ℕ) (w : W) : (List ℚ × ℚ) × W × List Pars :=
  -- initialize the code so time is more accurate
  let w0 := if 1 < evals then (calculator (suppress_pd pars true) w).2 else w
  let warm : List Pars := if 1 < evals then [suppress_pd pars true] else []
  let t0 := clock w0
  -- make sure there is at least one eval
  let first := calculator pars w0
  let rest := timeLoop calculator pars (evals - 1) first.1 first.2
  let average_time := (clock rest.2.1 - t0) * 1000 / evals
  ((rest.1, average_time), rest.2.1, warm ++ pars :: rest.2.2)

/-- State iteration of a calculator: the world after k further calls. -/
def iterState (calculator : Pars → W → List ℚ × W) (pars : Pars) :
    ℕ → W → W
  | 0, w => w
  | k+1, w => iterState calculator pars k (calculator pars w).2

end TimedEvaluator

/-! ### Model descriptors and the random-number generator

A model descriptor carries the fields of ModelInfo that the excerpted
core reads: the model identifier, the kernel parameter declarations,
whether Iq is implemented in python (callable(model_info.Iq)), and the
optional model-specific random-parameter hook.  The global numpy
generator is an abstract state type S; each primitive distribution draw
is an abstract function consuming the state, collected in RngOps.  The
power 10**x used for log-uniform draws is transcendental and is
abstracted as a function of the drawn exponent.
-/

/-- The role tag of a parameter declaration (par.type). -/
inductive ParType where
  | sld | volume | orientation | other
deriving DecidableEq

/-- One declared limit bound: a finite value or an infinity. -/
inductive LimitQ where
  | val : ℚ → LimitQ
  | posInf : LimitQ
  | negInf : LimitQ
deriving DecidableEq

/-- Whether a limit bound is finite (np.isfinite). -/
def LimitQ.isFiniteL : LimitQ → Bool
  | .val _ => true
  | _ => false

/-- Python max(limit, low) for the declared lower limit; an infinite
declared limit never binds. -/
def maxLimit : LimitQ → ℚ → ℚ
  | .val q, low => max q low
  | _, low => low

/-- Python min(limit, high) for the declared upper limit; an infinite
declared limit never binds. -/
def minLimit : LimitQ → ℚ → ℚ
  | .val q, high => min q high
  | _, high => high

/-- One parameter declaration from the model manifest. -/
structure ParamDef where
  name : String
  ptype : ParType
  polydisperse : Bool
  length : ℕ
  length_control : Option String
  limits : List LimitQ
deriving DecidableEq

/-- The model descriptor fields read by the comparison core. -/
structure ModelInfo (S : Type) where
  id : String
  kernel_parameters : List ParamDef
  iqIsPython : Bool
  random : Option (S → Pars × S)

/-- Lookup in the parameter table (model_info.parameters[name]); a
missing name raises KeyError, modelled as none. -/
def findParam {S : Type} (mi : ModelInfo S) (name : String) : Option ParamDef :=
  mi.kernel_parameters.find? fun p => p.name = name

/-- The primitive draws of the global numpy generator over an abstract
state S.  choice n draws an index below n (np.random.choice over n
items, one draw per requested element, with replacement). -/
structure RngOps (S : Type) where
  rand : S → ℚ × S
  beta : ℚ → ℚ → S → ℚ × S
  uniform : ℚ → ℚ → S → ℚ × S
  randint : ℕ → S → ℕ × S
  choice : ℕ → S → ℕ × S
  pow10 : ℚ → ℚ

/-- Numeric reading of a stored value; parameters reaching the numeric
branches of the randomizer always hold numbers. -/
def pvalToQ : PVal → ℚ
  | .num q => q
  | .str _ => 0

/-! ### _randomize_one (compare.py lines 296-369) -/

/-- Embedding of compare._randomize_one.  A KeyError from the parameter
table and a ValueError from parameter_range are modelled as none. -/
def _randomize_one {S : Type} (R : RngOps S) (mi : ModelInfo S)
    (name : String) (value : PVal) (s : S) : Option (PVal × S) :=
  if strEndsWith name "_pd" then
    match findParam mi (strDropRight name 3) with
    | none => none
    | some par =>
      if par.ptype = .orientation then
        -- Let oriention variation peak around 13 degrees; 95% < 42 degrees
        let (x, s') := R.beta (5/2) 20 s
        some (.num (180 * x), s')
      else
        -- Let polydispersity peak around 15%; 95% < 0.4; max=100%
        let (x, s') := R.beta (3/2) 7 s
        some (.num x, s')
  -- pd is selected globally rather than per parameter, so set to 0 for no pd
  else if strEndsWith name "_pd_n" then some (.num 0, s)
  -- Don't mess with distribution type for now
  else if strEndsWith name "_pd_type" then some (.str "gaussian", s)
  -- type-dependent value of number of sigmas; for gaussian use 3.
  else if strEndsWith name "_pd_nsigma" then some (.num 3, s)
  -- background in the range [0.01, 1]
  else if name = "background" then
    let (x, s') := R.uniform (-2) 0 s
    some (.num (R.pow10 x), s')
  -- scale defaults to 0.1% to 30% volume fraction
  else if name = "scale" then
    let (x, s') := R.uniform (-3) (-(1/2)) s
    some (.num (R.pow10 x), s')
  else
    match findParam mi name with
    | none => none
    | some par =>
      -- If it is a list of choices, pick one at random with equal probability
      if 2 < par.limits.length then
        let (k, s') := R.randint par.limits.length s
        some (.num k, s')
      -- If it is a fixed range, pick from it with equal probability
      else if par.limits.all LimitQ.isFiniteL then
        let lo := match par.limits.getD 0 LimitQ.negInf with
          | .val q => q | _ => 0
        let hi := match par.limits.getD 1 LimitQ.posInf with
          | .val q => q | _ => 0
        let (x, s') := R.uniform lo hi s
        some (.num x, s')
      -- If the paramter is marked as an sld use the range of neutron slds
      else if par.ptype = .sld then
        let (x, s') := R.uniform (-(1/2)) 12 s
        some (.num x, s')
      -- Limit magnetic SLDs to a smaller range, from zero to iron=5/A^2
      else if strStartsWith par.name "M0:" then
        let (x, s') := R.uniform 0 5 s
        some (.num x, s')
      -- Guess at the random length/radius/thickness
      else if par.ptype = .volume
          && (strContainsSub par.name "length" || strContainsSub par.name "radius"
              || strContainsSub par.name "thick") then
        let (x, s') := R.uniform 2 4 s
        some (.num (R.pow10 x), s')
      -- In the absence of any other info, use the heuristic range
      else
        match parameter_range par.name (pvalToQ value) with
        | .error _ => none
        | .ok (low, high) =>
          let lo := maxLimit (par.limits.getD 0 LimitQ.negInf) low
          let hi := minLimit (par.limits.getD 1 LimitQ.posInf) high
          let (x, s') := R.uniform lo hi s
          some (.num x, s')

/-! ### _random_pd (compare.py lines 371-407) -/

/-- The classification loop of _random_pd: split the polydisperse
kernel parameters into volume-dispersion candidate names (expanding
length-controlled and multi-valued parameters into numbered names) and
orientation-dispersion names, in declaration order. -/
def classify_pd (pars : Pars) : List ParamDef → List String × List String
  | [] => ([], [])
  | p :: rest =>
    let (vol, ori) := classify_pd pars rest
    if p.ptype = .orientation then (vol, p.name :: ori)
    else
      match p.length_control with
      | some ctl =>
        let n := (pyInt (getQD pars ctl 1 + 1/2)).toNat
        (((List.range n).map fun k => p.name ++ Nat.repr (k+1)) ++ vol, ori)
      | none =>
        if 1 < p.length then
          (((List.range p.length).map fun k => p.name ++ Nat.repr (k+1)) ++ vol, ori)
        else (p.name :: vol, ori)

/-- Embedding of compare._random_pd.  np.random.choice over the
candidate list is one index draw per selected element, drawn with
replacement (the numpy default). -/
def _random_pd {S : Type} (R : RngOps S) (mi : ModelInfo S)
    (pars : Pars) (s : S) : Pars × S :=
  let pd := mi.kernel_parameters.filter fun p => p.polydisperse
  let pd_volume := (classify_pd pars pd).1
  let pd_oriented := (classify_pd pars pd).2
  let u := (R.rand s).1
  let s1 := (R.rand s).2
  let n := pd_volume.length
  let volStep : Pars × S :=
    if u < 1/100 ∨ n < 1 then
      (pars, s1)  -- 1% chance of no polydispersity
    else if u < 86/100 ∨ n < 2 then
      (dset pars (pd_volume.getD (R.choice n s1).1 "" ++ "_pd_n") (.num 35),
       (R.choice n s1).2)
    else if u < 99/100 ∨ n < 3 then
      (dset (dset pars
          (pd_volume.getD (R.choice n s1).1 "" ++ "_pd_n") (.num 25))
         (pd_volume.getD (R.choice n (R.choice n s1).2).1 "" ++ "_pd_n") (.num 10),
       (R.choice n (R.choice n s1).2).2)
    else
      (dset (dset (dset pars
          (pd_volume.getD (R.choice n s1).1 "" ++ "_pd_n") (.num 25))
          (pd_volume.getD (R.choice n (R.choice n s1).2).1 "" ++ "_pd_n") (.num 10))
         (pd_volume.getD (R.choice n (R.choice n (R.choice n s1).2).2).1 "" ++ "_pd_n")
           (.num 5),
       (R.choice n (R.choice n (R.choice n s1).2).2).2)
  if pd_oriented.isEmpty then volStep
  else
    let pars3 := dset volStep.1 "theta_pd_n" (.num 20)
    let pars4 := if (R.rand volStep.2).1 < 1/10
      then dset pars3 "phi_pd_n" (.num 5) else pars3
    let s3 := (R.rand volStep.2).2
    let pars5 :=
      if (R.rand s3).1 < 1/10 then
        if mi.kernel_parameters.any fun p => p.name = "psi"
        then dset pars4 "psi_pd_n" (.num 5) else pars4
      else pars4
    (pars5, (R.rand s3).2)

/-- The activation pattern asserted by the spec for the two-candidate
branch: two distinct volume candidates hold 25 and 10 dispersion
points. -/
def activatesTwoDistinct (cands : List String) (pars : Pars) : Prop :=
  ∃ c1 ∈ cands, ∃ c2 ∈ cands, c1 ≠ c2
    ∧ dget pars (c1 ++ "_pd_n") = some (PVal.num 25)
    ∧ dget pars (c2 ++ "_pd_n") = some (PVal.num 10)

instance (cands : List String) (pars : Pars) :
    Decidable (activatesTwoDistinct cands pars) := by
  unfold activatesTwoDistinct
  exact inferInstance

/-- A concrete generator over natural-number states whose uniform draw
is 9/10 and whose choice draw always picks index 0. -/
def rngDup : RngOps ℕ :=
  { rand := fun s => (9/10, s+1)
  , beta := fun _ _ s => (0, s+1)
  , uniform := fun _ _ s => (0, s+1)
  , randint := fun _ s => (0, s+1)
  , choice := fun _ s => (0, s+1)
  , pow10 := fun _ => 0 }

/-- A concrete generator over natural-number states whose uniform draw
is 9/10 and whose choice draw returns the current state (so successive
draws pick distinct indices). -/
def rngSeq : RngOps ℕ :=
  { rand := fun s => (9/10, s+1)
  , beta := fun _ _ s => (0, s+1)
  , uniform := fun _ _ s => (0, s+1)
  , randint := fun _ s => (0, s+1)
  , choice := fun _ s => (s % 3, s+1)
  , pow10 := fun _ => 0 }

/-- A concrete model descriptor with three polydisperse volume
parameters and nothing else. -/
def miVol3 : ModelInfo ℕ :=
  { id := "m"
  , kernel_parameters :=
      [{ name := "a", ptype := .volume, polydisperse := true, length := 1,
         length_control := none, limits := [] },
       { name := "b", ptype := .volume, polydisperse := true, length := 1,
         length_control := none, limits := [] },
       { name := "c", ptype := .volume, polydisperse := true, length := 1,
         length_control := none, limits := [] }]
  , iqIsPython := false
  , random := none }

/-- A concrete model descriptor with three polydisperse volume
parameters plus polydisperse orientation parameters theta and phi, in
the shape of the parallelepiped model. -/
def miVol3Ori : ModelInfo ℕ :=
  { id := "p"
  , kernel_parameters :=
      [{ name := "a", ptype := .volume, polydisperse := true, length := 1,
         length_control := none, limits := [] },
       { name := "b", ptype := .volume, polydisperse := true, length := 1,
         length_control := none, limits := [] },
       { name := "c", ptype := .volume, polydisperse := true, length := 1,
         length_control := none, limits := [] },
       { name := "theta", ptype := .orientation, polydisperse := true,
         length := 1, length_control := none, limits := [] },
       { name := "phi", ptype := .orientation, polydisperse := true,
         length := 1, length_control := none, limits := [] }]
  , iqIsPython := false
  , random := none }

/-! ### randomize_pars (compare.py lines 415-431) -/

/-- Python sorted() over the key-value pairs of the parameter dict;
with distinct keys the sort is by key, in code-point order. -/
def sortPairs (pars : Pars) : Pars :=
  List.insertionSort (fun a b => a.1 ≤ b.1) pars

/-- The comprehension dict((p, _randomize_one(model_info, p, v)) for p, v
in sorted(pars.items())): randomize each entry in sorted order,
threading the generator state left to right. -/
def randomize_list {S : Type} (R : RngOps S) (mi : ModelInfo S) :
    List (String × PVal) → S → Option (Pars × S)
  | [], s => some ([], s)
  | (k, v) :: rest, s =>
    match _randomize_one R mi k v s with
    | none => none
    | some (v', s') =>
      match randomize_list R mi rest s' with
      | none => none
      | some (l, s'') => some ((k, v') :: l, s'')

/-- dict.update with the pairs returned by the model random hook. -/
def updatePairs (pars : Pars) (ov : Pars) : Pars :=
  ov.foldl (fun ps kv => dset ps kv.1 kv.2) pars

/-- Embedding of compare.randomize_pars. -/
def randomize_pars {S : Type} (R : RngOps S) (mi : ModelInfo S)
    (pars : Pars) (s : S) : Option (Pars × S) :=
  -- Note: the sort guarantees order of calls to random number generator
  match randomize_list R mi (sortPairs pars) s with
  | none => none
  | some (random_pars, s1) =>
    let (random_pars2, s2) :=
      match mi.random with
      | some hook =>
        let (ov, s') := hook s1
        (updatePairs random_pars ov, s')
      | none => (random_pars, s1)
    some (_random_pd R mi random_pars2 s2)

/-! ### constrain_pars (compare.py lines 434-489)

The guinier stability bound sqrt(90 ln 10 + 3 ln scale)/q_max is
transcendental; it is abstracted as a function rgMax of the scale
value.  A KeyError from a missing parameter key (and a TypeError from a
non-numeric value) is modelled as none.  The float division of the rpa
fraction renormalization is exact rational division here; under the
positivity hypotheses of the claims the divisor is nonzero.
-/

/-- Embedding of compare.constrain_pars. -/
def constrain_pars {S : Type} (rgMax : ℚ → ℚ) (mi : ModelInfo S)
    (pars : Pars) : Option Pars :=
  -- if it is a product model, just look at the form factor
  let name : String := ⟨mi.id.data.takeWhile (· ≠ '*')⟩
  -- Suppress magnetism for python models (not yet implemented)
  let pars := if mi.iqIsPython then suppress_magnetism pars true else pars
  if name = "barbell" then
    match getQ? pars "radius_bell", getQ? pars "radius" with
    | some rb, some r =>
      if rb < r then
        some (dset (dset pars "radius" (.num rb)) "radius_bell" (.num r))
      else some pars
    | _, _ => none
  else if name = "capped_cylinder" then
    match getQ? pars "radius_cap", getQ? pars "radius" with
    | some rc, some r =>
      if rc < r then
        some (dset (dset pars "radius" (.num rc)) "radius_cap" (.num r))
      else some pars
    | _, _ => none
  else if name = "guinier" then
    -- Limit guinier to an Rg such that Iq > 1e-30 (single precision cutoff)
    match getQ? pars "scale", getQ? pars "rg" with
    | some sc, some rg => some (dset pars "rg" (.num (min rg (rgMax sc))))
    | _, _ => none
  else if name = "pearl_necklace" then
    match getQ? pars "radius", getQ? pars "thick_string" with
    | some r, some t =>
      if r < t then
        some (dset (dset pars "radius" (.num t)) "thick_string" (.num r))
      else some pars
    | _, _ => none
  else if name = "rpa" then
    -- Make sure phi sums to 1.0
    match getQ? pars "case_num" with
    | none => none
    | some cn =>
      let pars :=
        if cn < 2 then dset (dset pars "Phi1" (.num 0)) "Phi2" (.num 0)
        else if cn < 5 then dset pars "Phi1" (.num 0)
        else pars
      match getQ? pars "Phi1", getQ? pars "Phi2",
          getQ? pars "Phi3", getQ? pars "Phi4" with
      | some f1, some f2, some f3, some f4 =>
        let total := f1 + f2 + f3 + f4
        some (dset (dset (dset (dset pars
            "Phi1" (.num (f1/total))) "Phi2" (.num (f2/total)))
            "Phi3" (.num (f3/total))) "Phi4" (.num (f4/total)))
      | _, _, _, _ => none
  else some pars

/-! ## Lemmas and claim theorems -/

@[simp] theorem dget_dset_self (pars : Pars) (k : String) (v : PVal) :
    dget (dset pars k v) k = some v := by
  induction pars with
  | nil => simp [dget, dset]
  | cons hd tl ih =>
    by_cases h : hd.1 = k <;> simp [dget, dset, h, ih]

theorem dget_dset_ne (pars : Pars) (k k' : String) (v : PVal) (h : k ≠ k') :
    dget (dset pars k v) k' = dget pars k' := by
  induction pars with
  | nil => simp [dget, dset, h]
  | cons hd tl ih =>
    by_cases hk : hd.1 = k
    · simp [dget, dset, hk, h]
    · by_cases hk' : hd.1 = k' <;> simp [dget, dset, hk, hk', Ne.symm h, ih]

/-! ### Claim C1: the seed scope -/

theorem push_seed_scope_restores {σ ε : Type} (seedFn : ℕ → σ) (entropy : σ)
    (seed : Option ℕ) (body : σ → Except ε σ) (s : σ) :
    (push_seed_scope seedFn entropy seed body s).2 = s := by
  unfold push_seed_scope
  cases body (push_seed_init seedFn entropy seed s).2 <;> rfl

/-- Claim C1 counterexample: with no seed given, push_seed still calls
np.random.seed(None), which reseeds the generator from fresh entropy, so
the state right after acquisition can differ from the state before it;
here the generator state is a natural number, the entropy state is 1 and
the state before acquisition is 0.  This refutes the reading that the
scope reseeds only if a seed was given. -/
theorem claim_C1_counterexample :
    (push_seed_init (σ := ℕ) (fun n => n) 1 none 0).2 ≠ 0 := by
  decide

/-- Claim C1 (amended): on acquisition push_seed saves the current
global generator state and then reseeds: deterministically from the
seed when one is given, from fresh entropy otherwise.  On release the
saved state is restored bit-identically, also when the protected block
fails, and a nested scope (with any seed and any protected block,
failing or not) leaves the enclosing draw sequence exactly as if it
never ran. -/
theorem claim_C1_push_seed_scope (σ ε : Type) (seedFn : ℕ → σ) (entropy : σ)
    (seed : Option ℕ) (body : σ → Except ε σ) (s : σ) :
    (push_seed_init seedFn entropy seed s).1 = s
    ∧ (∀ n, seed = some n → (push_seed_init seedFn entropy seed s).2 = seedFn n)
    ∧ (push_seed_scope seedFn entropy seed body s).2 = s
    ∧ (∀ (next : σ → ℕ × σ) (innerSeed : Option ℕ)
        (innerBody : σ → Except ε σ),
        draw_pair next
            (fun st => (push_seed_scope seedFn entropy innerSeed innerBody st).2) s
          = draw_pair next id s) := by
  refine ⟨rfl, ?_, ?_, ?_⟩
  · rintro n rfl
    rfl
  · exact push_seed_scope_restores seedFn entropy seed body s
  · intro next innerSeed innerBody
    unfold draw_pair
    simp only [push_seed_scope_restores, id]

/-- Claim C1 witness: the amended theorem at state 7 with seed 24 and a
failing protected block. -/
theorem claim_C1_witness :
    (push_seed_init (σ := ℕ) (fun n => n) 1 (some 24) 7).2 = 24
    ∧ (push_seed_scope (σ := ℕ) (ε := Unit) (fun n => n) 1 (some 24)
        (fun _ => .error ()) 7).2 = 7 :=
  ⟨(claim_C1_push_seed_scope ℕ Unit (fun n => n) 1 (some 24)
      (fun _ => .error ()) 7).2.1 24 rfl,
   (claim_C1_push_seed_scope ℕ Unit (fun n => n) 1 (some 24)
      (fun _ => .error ()) 7).2.2.1⟩

/-! ### Claim C2: residual and relative error in run_models -/

/-- Claim C2: when both sides of run_models succeed, the residual array
is base minus comparison and the relative-error array is the residual
divided elementwise by the magnitude of the comparison value, with a
denominator of 1 exactly where the comparison value is 0; in particular
base [1] against comparison [0] yields relative error [1], not a
division by zero. -/
theorem claim_C2_run_models (b c : List ℚ) (tb tc : ℚ) :
    (∃ rel : List ℚ,
      run_models (.ok (b, tb)) (some (.ok (c, tc))) =
        .ok { base_value := some b, comp_value := some c,
              base_time := some tb, comp_time := some tc,
              resid := some (List.zipWith (fun x y => x - y) b c),
              relerr := some rel }
      ∧ rel.length = min b.length c.length
      ∧ ∀ i, i < rel.length →
          rel.getD i 0 =
            (b.getD i 0 - c.getD i 0) /
              (if c.getD i 0 = 0 then 1 else |c.getD i 0|))
    ∧ run_models (.ok ([1], tb)) (some (.ok ([0], tc))) =
        .ok { base_value := some [1], comp_value := some [0],
              base_time := some tb, comp_time := some tc,
              resid := some [1], relerr := some [1] } := by
  constructor
  · refine ⟨List.zipWith (· / ·) (List.zipWith (fun x y => x - y) b c)
      (c.map fun x => if x = 0 then 1 else |x|), ?_, ?_, ?_⟩
    · simp [run_models, catchImport, Bind.bind, Except.bind, Pure.pure,
        Except.pure]
    · simp
    · intro i hi
      simp only [List.length_zipWith, List.length_map, lt_min_iff] at hi
      obtain ⟨⟨hib, hic⟩, -⟩ := hi
      rw [List.getD_eq_getElem _ _ (by simp; omega),
        List.getD_eq_getElem _ _ hib, List.getD_eq_getElem _ _ hic,
        List.getElem_zipWith, List.getElem_zipWith, List.getElem_map]
  · simp [run_models, catchImport, Bind.bind, Except.bind, Pure.pure,
      Except.pure]

/-- Claim C2 witness: the theorem at base [1], comparison [0], with the
elementwise description applied at index 0. -/
theorem claim_C2_witness :
    run_models (.ok ([(1 : ℚ)], 0)) (some (.ok ([0], 0))) =
      .ok { base_value := some [1], comp_value := some [0],
            base_time := some 0, comp_time := some 0,
            resid := some [1], relerr := some [1] } :=
  (claim_C2_run_models [1] [0] 0 0).2

/-! ### Claim C4: partial failure in run_models -/

/-- Claim C4 evaluation: when a comparison calculator was requested and
one side raises ImportError (the missing-backend failure), run_models
catches the ImportError, leaves that side unset, and then raises
TypeError from the subtraction base_value - comp_value with a None
operand, instead of returning the partial result dictionary.  Both
orientations of the failure raise. -/
theorem claim_C4_partial_failure :
    run_models (.ok ([1], 0)) (some (.error .importError)) =
      .error .typeError
    ∧ run_models (.error .importError) (some (.ok ([1], 0))) =
      .error .typeError := by
  constructor <;> rfl

/-! ### Claim C3: the statistics summary -/

theorem sortQ_perm (l : List ℚ) : (sortQ l).Perm l :=
  List.perm_insertionSort _ l

theorem sortQ_sorted (l : List ℚ) : (sortQ l).Sorted (· ≤ ·) :=
  List.sorted_insertionSort _ l

theorem sortQ_length (l : List ℚ) : (sortQ l).length = l.length :=
  (sortQ_perm l).length_eq

theorem sorted_le_getLastD (x : ℚ) :
    ∀ (l : List ℚ) (d : ℚ), l.Sorted (· ≤ ·) → x ∈ l → x ≤ l.getLastD d
  | [], _, _, hx => absurd hx (List.not_mem_nil x)
  | a :: t, d, hs, hx => by
    rw [List.getLastD_cons]
    have hs1 := List.sorted_cons.mp hs
    rcases List.mem_cons.mp hx with rfl | hxt
    · rcases List.mem_cons.mp (List.getLastD_mem_cons t x) with hEq | hMem
      · exact hEq.ge
      · exact hs1.1 _ hMem
    · exact sorted_le_getLastD x t a hs1.2 hxt

theorem getLastD_mem_self (l : List ℚ) (d : ℚ) (h : l ≠ []) :
    l.getLastD d ∈ l := by
  cases l with
  | nil => exact absurd rfl h
  | cons a t =>
    rw [List.getLastD_cons]
    exact List.getLastD_mem_cons t a

theorem print_stats_of_valid (err : List (ℚ × Bool))
    (h : ((err.filter fun x => x.2).map fun x => |x.1|) ≠ []) :
    _print_stats err = some
      { max := (sortQ ((err.filter fun x => x.2).map fun x => |x.1|)).getLastD 0
      , median := (sortQ ((err.filter fun x => x.2).map fun x => |x.1|)).getD
          ((pyInt ((((sortQ ((err.filter fun x => x.2).map fun x => |x.1|)).length : ℚ) - 1)
            * (50/100))).toNat) 0
      , p98 := (sortQ ((err.filter fun x => x.2).map fun x => |x.1|)).getD
          ((pyInt ((((sortQ ((err.filter fun x => x.2).map fun x => |x.1|)).length : ℚ) - 1)
            * (98/100))).toNat) 0
      , rmsSq := (((sortQ ((err.filter fun x => x.2).map fun x => |x.1|)).map
          fun x => x^2).sum) / ((sortQ ((err.filter fun x => x.2).map fun x => |x.1|)).length)
      , zeroOffset := ((sortQ ((err.filter fun x => x.2).map fun x => |x.1|)).sum)
          / ((sortQ ((err.filter fun x => x.2).map fun x => |x.1|)).length) } := by
  unfold _print_stats
  rw [if_neg]
  rw [sortQ_length]
  simpa using h

/-- Claim C3 counterexample: on the error array with valid entries -1
and 1, the zero-offset reported by _print_stats is the mean of the
sorted absolute values, 1, and not the signed mean of the error
entries, which is ((-1) + 1)/2 = 0.  This refutes the clause that the
summary reports the signed mean of the error entries. -/
theorem claim_C3_counterexample :
    (_print_stats [((-1 : ℚ), true), (1, true)]).map ErrStats.zeroOffset ≠
      some (((-1 : ℚ) + 1) / 2) := by
  rw [print_stats_of_valid _ (by decide)]
  simp +decide [sortQ, List.insertionSort, List.orderedInsert]

/-- Claim C3 (amended): _print_stats first compresses the array to its
valid entries; with none valid it reports the no-valid-values outcome
and nothing else; otherwise, over the sorted absolute values of the n
valid entries, it reports the maximum, the median at sorted index
floor((n-1)/2), the 98th percentile at sorted index floor((n-1)*98/100),
the root-mean-square (the rmsSq field holding the mean square under the
root), and the mean of the absolute values as the zero-offset line (not
the signed mean of the entries); on errors [1, 2, 3, 4] this yields
max 4, median 2, rms sqrt(30/4) and mean 5/2. -/
theorem claim_C3_print_stats (err : List (ℚ × Bool)) :
    ((∀ x ∈ err, x.2 = false) → _print_stats err = none)
    ∧ ((err.filter fun x => x.2) ≠ [] →
      ∃ s : ErrStats, _print_stats err = some s
        ∧ s.max ∈ ((err.filter fun x => x.2).map fun x => |x.1|)
        ∧ (∀ y ∈ ((err.filter fun x => x.2).map fun x => |x.1|), y ≤ s.max)
        ∧ s.median = (sortQ ((err.filter fun x => x.2).map fun x => |x.1|)).getD
            ((pyInt ((((err.filter fun x => x.2).length : ℚ) - 1) * (50/100))).toNat) 0
        ∧ s.p98 = (sortQ ((err.filter fun x => x.2).map fun x => |x.1|)).getD
            ((pyInt ((((err.filter fun x => x.2).length : ℚ) - 1) * (98/100))).toNat) 0
        ∧ s.rmsSq = (((err.filter fun x => x.2).map fun x => x.1^2).sum)
            / ((err.filter fun x => x.2).length)
        ∧ s.zeroOffset = (((err.filter fun x => x.2).map fun x => |x.1|).sum)
            / ((err.filter fun x => x.2).length))
    ∧ _print_stats [(1, true), (2, true), (3, true), (4, true)] =
        some { max := 4, median := 2, p98 := 3, rmsSq := 30/4, zeroOffset := 5/2 } := by
  refine ⟨?_, ?_, ?_⟩
  · intro hall
    have hnil : err.filter (fun x => x.2) = [] := by
      rw [List.filter_eq_nil_iff]
      intro a ha
      simp [hall a ha]
    simp [_print_stats, hnil, sortQ, List.insertionSort]
  · intro hne
    have hA : ((err.filter fun x => x.2).map fun x => |x.1|) ≠ [] := by
      simpa using hne
    have hlen : (sortQ ((err.filter fun x => x.2).map fun x => |x.1|)).length
        = (err.filter fun x => x.2).length := by
      rw [sortQ_length, List.length_map]
    have hperm := sortQ_perm ((err.filter fun x => x.2).map fun x => |x.1|)
    have hSne : (sortQ ((err.filter fun x => x.2).map fun x => |x.1|)) ≠ [] := by
      intro hcon
      apply hA
      have hz := sortQ_length ((err.filter fun x => x.2).map fun x => |x.1|)
      rw [hcon] at hz
      exact List.length_eq_zero.mp hz.symm
    refine ⟨_, print_stats_of_valid err hA, ?_, ?_, ?_, ?_, ?_, ?_⟩
    · exact hperm.mem_iff.mp (getLastD_mem_self _ 0 hSne)
    · intro y hy
      exact sorted_le_getLastD y _ 0 (sortQ_sorted _) (hperm.mem_iff.mpr hy)
    · rw [hlen]
    · rw [hlen]
    · dsimp only
      rw [hlen, (hperm.map fun x => x^2).sum_eq, List.map_map]
      have hfun : ((fun x : ℚ => x^2) ∘ fun x : ℚ × Bool => |x.1|)
          = fun x : ℚ × Bool => x.1^2 := by
        funext x
        simp [Function.comp, sq_abs]
      rw [hfun]
    · dsimp only
      rw [hlen, hperm.sum_eq]
  · rw [print_stats_of_valid _ (by decide)]
    simp +decide [sortQ, List.insertionSort, List.orderedInsert]
    norm_num [pyInt]
    decide

/-- Claim C3 witness: the amended theorem on an error array whose only
entry is masked, giving the no-valid-values outcome. -/
theorem claim_C3_witness :
    (∀ x ∈ ([((5 : ℚ), false)] : List (ℚ × Bool)), x.2 = false)
    ∧ _print_stats [((5 : ℚ), false)] = none :=
  ⟨by decide, (claim_C3_print_stats [((5 : ℚ), false)]).1 (by decide)⟩

/-! ### Claim C5: the parameter range heuristic -/

/-- Claim C5: parameter_range follows the priority order of the spec:
dispersion-count names give (0, 100); orientation names with the
dispersion-width suffix give (0, 45) and without it (-180, 180); the
exact names background and scale give (0, 10) and (0, 1000); a negative
current value falls through to (2v, -2v); a dispersion-shape name fails
instead of returning a range. -/
theorem claim_C5_parameter_range (p : String) (v : ℚ) :
    (strEndsWith p "_pd_n" = true → parameter_range p v = .ok (0, 100))
    ∧ (strEndsWith p "_pd_n" = false → strEndsWith p "_pd_nsigma" = false →
       strEndsWith p "_pd_type" = false →
       (strContainsSub p "theta" || strContainsSub p "phi"
         || strContainsSub p "psi") = true →
       strEndsWith p "_pd" = true → parameter_range p v = .ok (0, 45))
    ∧ (strEndsWith p "_pd_n" = false → strEndsWith p "_pd_nsigma" = false →
       strEndsWith p "_pd_type" = false →
       (strContainsSub p "theta" || strContainsSub p "phi"
         || strContainsSub p "psi") = true →
       strEndsWith p "_pd" = false → parameter_range p v = .ok (-180, 180))
    ∧ parameter_range "background" v = .ok (0, 10)
    ∧ parameter_range "scale" v = .ok (0, 1000)
    ∧ (v < 0 → parameter_range "anything" v = .ok (2*v, -(2*v)))
    ∧ parameter_range "anything" (-5) = .ok (-10, 10)
    ∧ (strEndsWith p "_pd_n" = false → strEndsWith p "_pd_nsigma" = false →
       strEndsWith p "_pd_type" = true →
       parameter_range p v = .error "Cannot return a range for a string value") := by
  refine ⟨?_, ?_, ?_, ?_, ?_, ?_, ?_, ?_⟩
  · intro h1
    simp [parameter_range, h1]
  · intro h1 h2 h3 h4 h5
    simp [parameter_range, h1, h2, h3, h4, h5]
  · intro h1 h2 h3 h4 h5
    simp [parameter_range, h1, h2, h3, h4, h5]
  · simp +decide [parameter_range]
  · simp +decide [parameter_range]
  · intro hv
    simp +decide [parameter_range]
    simp [hv, not_lt.mpr (le_of_lt hv)]
  · simp +decide [parameter_range]
    norm_num
  · intro h1 h2 h3
    simp [parameter_range, h1, h2, h3]

/-- Claim C5 witness: the theorem at the concrete names of the spec
tests. -/
theorem claim_C5_witness :
    parameter_range "foo_pd_n" 3 = .ok (0, 100)
    ∧ parameter_range "theta_pd" 3 = .ok (0, 45)
    ∧ parameter_range "theta" 3 = .ok (-180, 180)
    ∧ parameter_range "x_pd_type" 3 =
        .error "Cannot return a range for a string value" :=
  ⟨(claim_C5_parameter_range "foo_pd_n" 3).1 (by decide),
   (claim_C5_parameter_range "theta_pd" 3).2.1 (by decide) (by decide)
     (by decide) (by decide) (by decide),
   (claim_C5_parameter_range "theta" 3).2.2.1 (by decide) (by decide)
     (by decide) (by decide) (by decide),
   (claim_C5_parameter_range "x_pd_type" 3).2.2.2.2.2.2.2 (by decide)
     (by decide) (by decide)⟩

/-! ### Claim C10: suppress_pd and suppress_magnetism are copies -/

theorem dget_map_zero (pars : Pars) (cond : String → Bool) (k : String) :
    dget (pars.map fun kv => if cond kv.1 then (kv.1, PVal.num 0) else kv) k
      = (dget pars k).map fun v => if cond k then PVal.num 0 else v := by
  induction pars with
  | nil => simp [dget]
  | cons hd tl ih =>
    obtain ⟨hk, hv⟩ := hd
    simp only [List.map_cons]
    by_cases hck : cond hk = true
    · rw [if_pos hck]
      by_cases hkk : hk = k
      · subst hkk
        simp [dget, hck]
      · simp [dget, hkk, ih]
    · rw [if_neg hck]
      by_cases hkk : hk = k
      · subst hkk
        simp [dget, Bool.of_not_eq_true hck]
      · simp [dget, hkk, ih]

theorem map_zero_keys (pars : Pars) (cond : String → Bool) :
    (pars.map fun kv => if cond kv.1 then (kv.1, PVal.num 0) else kv).map Prod.fst
      = pars.map Prod.fst := by
  induction pars with
  | nil => rfl
  | cons hd tl ih =>
    by_cases hck : cond hd.1 <;> simp [hck, ih]

theorem suppress_pd_true_dget (pars : Pars) (k : String) :
    dget (suppress_pd pars true) k
      = (dget pars k).map fun v => if strEndsWith k "_pd_n" then PVal.num 0 else v :=
  dget_map_zero pars (fun s => strEndsWith s "_pd_n") k

theorem suppress_magnetism_true_dget (pars : Pars) (k : String) :
    dget (suppress_magnetism pars true) k
      = (dget pars k).map fun v => if strStartsWith k "M0:" then PVal.num 0 else v :=
  dget_map_zero pars (fun s => strStartsWith s "M0:") k

/-- Claim C10: with suppress set, suppress_pd and suppress_magnetism
return a parameter set in which every dispersion-count key
(respectively every magnetic-moment key) holds 0 and every other entry
is unchanged, with the key list preserved; the input parameter set is a
value the functions never mutate (the embedding is pure, mirroring the
pars.copy() the source performs before updating). -/
theorem claim_C10_suppress_copies (pars : Pars) (k : String) :
    dget (suppress_pd pars true) k
      = (dget pars k).map (fun v => if strEndsWith k "_pd_n" then PVal.num 0 else v)
    ∧ dget (suppress_magnetism pars true) k
      = (dget pars k).map (fun v => if strStartsWith k "M0:" then PVal.num 0 else v)
    ∧ (suppress_pd pars true).map Prod.fst = pars.map Prod.fst
    ∧ (suppress_magnetism pars true).map Prod.fst = pars.map Prod.fst :=
  ⟨suppress_pd_true_dget pars k, suppress_magnetism_true_dget pars k,
   map_zero_keys pars (fun s => strEndsWith s "_pd_n"),
   map_zero_keys pars (fun s => strStartsWith s "M0:")⟩

/-! ### Claim C8: the timed evaluator -/

theorem timeLoop_spec {W : Type} (calculator : Pars → W → List ℚ × W)
    (pars : Pars) :
    ∀ (k : ℕ) (v : List ℚ) (w : W),
      timeLoop calculator pars k v w
        = ((match k with
            | 0 => v
            | k'+1 => (calculator pars (iterState calculator pars k' w)).1),
           iterState calculator pars k w, List.replicate k pars)
  | 0, _, _ => rfl
  | k+1, v, w => by
    simp only [timeLoop]
    rw [timeLoop_spec calculator pars k _ _]
    cases k with
    | zero => simp [iterState]
    | succ k' => simp [iterState, List.replicate_succ]

/-- Claim C8: for n at least 1, time_calculation performs one untimed
warm-up call with the polydispersity-suppressed parameter set exactly
when n exceeds 1, then performs exactly n timed calls with the real
parameter set, returns the output of the last timed call, and reports
the elapsed wall-clock time of the timed calls (from after the warm-up
to after the last call) divided by n, scaled from seconds to
milliseconds; the warm-up parameter set holds 0 at every
dispersion-count key. -/
theorem claim_C8_time_calculation {W : Type} (clock : W → ℚ)
    (calculator : Pars → W → List ℚ × W) (pars : Pars) (n : ℕ) (w : W)
    (hn : 1 ≤ n) :
    (time_calculation clock calculator pars n w).2.2
      = (if 1 < n then [suppress_pd pars true] else []) ++ List.replicate n pars
    ∧ (time_calculation clock calculator pars n w).1.1
      = (calculator pars (iterState calculator pars (n-1)
          (if 1 < n then (calculator (suppress_pd pars true) w).2 else w))).1
    ∧ (time_calculation clock calculator pars n w).1.2
      = (clock (iterState calculator pars n
            (if 1 < n then (calculator (suppress_pd pars true) w).2 else w))
         - clock (if 1 < n then (calculator (suppress_pd pars true) w).2 else w))
          * 1000 / n
    ∧ ∀ k, dget (suppress_pd pars true) k
        = (dget pars k).map fun v => if strEndsWith k "_pd_n" then PVal.num 0 else v := by
  obtain ⟨m, rfl⟩ : ∃ m, n = m + 1 := ⟨n - 1, (Nat.succ_pred_eq_of_pos hn).symm⟩
  refine ⟨?_, ?_, ?_, fun k => suppress_pd_true_dget pars k⟩
  · simp only [time_calculation, timeLoop_spec, Nat.add_sub_cancel]
    rw [List.replicate_succ]
  · simp only [time_calculation, timeLoop_spec, Nat.add_sub_cancel]
    cases m with
    | zero => rfl
    | succ m' => rfl
  · simp only [time_calculation, timeLoop_spec, Nat.add_sub_cancel]
    rfl

/-- Claim C8 witness: the theorem at n = 3 over the world of clock
readings, with a calculator that returns the current reading and
advances the clock by one. -/
theorem claim_C8_witness :
    (time_calculation (fun w : ℚ => w) (fun _ w => ([w], w + 1)) [] 3 0).2.2
      = (if 1 < 3 then [suppress_pd [] true] else []) ++ List.replicate 3 []
    ∧ (time_calculation (fun w : ℚ => w) (fun _ w => ([w], w + 1)) [] 3 0).1.1
      = ((fun (_ : Pars) (w : ℚ) => ([w], w + 1)) []
          (iterState (fun _ w => ([w], w + 1)) [] (3-1)
            (if 1 < 3 then ((fun (_ : Pars) (w : ℚ) => ([w], w + 1))
              (suppress_pd [] true) 0).2 else 0))).1
    ∧ (time_calculation (fun w : ℚ => w) (fun _ w => ([w], w + 1)) [] 3 0).1.2
      = ((fun w : ℚ => w) (iterState (fun _ w => ([w], w + 1)) [] 3
            (if 1 < 3 then ((fun (_ : Pars) (w : ℚ) => ([w], w + 1))
              (suppress_pd [] true) 0).2 else 0))
         - (fun w : ℚ => w) (if 1 < 3 then ((fun (_ : Pars) (w : ℚ) => ([w], w + 1))
              (suppress_pd [] true) 0).2 else 0)) * 1000 / 3 := by
  refine ⟨?_, ?_, ?_⟩
  · exact (claim_C8_time_calculation (fun w : ℚ => w)
      (fun _ w => ([w], w + 1)) [] 3 0 (by decide)).1
  · exact (claim_C8_time_calculation (fun w : ℚ => w)
      (fun _ w => ([w], w + 1)) [] 3 0 (by decide)).2.1
  · exact (claim_C8_time_calculation (fun w : ℚ => w)
      (fun _ w => ([w], w + 1)) [] 3 0 (by decide)).2.2.1

/-! ### Claim C7: compositional-fraction repair for rpa -/

theorem getQ?_dset_self (pars : Pars) (k : String) (q : ℚ) :
    getQ? (dset pars k (PVal.num q)) k = some q := by
  simp [getQ?, dget_dset_self]

theorem getQ?_dset_ne (pars : Pars) (k k' : String) (v : PVal) (h : k ≠ k') :
    getQ? (dset pars k v) k' = getQ? pars k' := by
  simp [getQ?, dget_dset_ne pars k k' v h]

theorem getQ?_suppress_magnetism_true (pars : Pars) (k : String)
    (h : strStartsWith k "M0:" = false) :
    getQ? (suppress_magnetism pars true) k = getQ? pars k := by
  unfold getQ?
  rw [suppress_magnetism_true_dget, h]
  cases dget pars k <;> simp

theorem rpa_renorm_lookup (pars1 : Pars) (v1 v2 v3 v4 : ℚ) :
    getQ? (dset (dset (dset (dset pars1
        "Phi1" (.num (v1/(v1+v2+v3+v4)))) "Phi2" (.num (v2/(v1+v2+v3+v4))))
        "Phi3" (.num (v3/(v1+v2+v3+v4)))) "Phi4" (.num (v4/(v1+v2+v3+v4))))
      "Phi1" = some (v1/(v1+v2+v3+v4))
    ∧ getQ? (dset (dset (dset (dset pars1
        "Phi1" (.num (v1/(v1+v2+v3+v4)))) "Phi2" (.num (v2/(v1+v2+v3+v4))))
        "Phi3" (.num (v3/(v1+v2+v3+v4)))) "Phi4" (.num (v4/(v1+v2+v3+v4))))
      "Phi2" = some (v2/(v1+v2+v3+v4))
    ∧ getQ? (dset (dset (dset (dset pars1
        "Phi1" (.num (v1/(v1+v2+v3+v4)))) "Phi2" (.num (v2/(v1+v2+v3+v4))))
        "Phi3" (.num (v3/(v1+v2+v3+v4)))) "Phi4" (.num (v4/(v1+v2+v3+v4))))
      "Phi3" = some (v3/(v1+v2+v3+v4))
    ∧ getQ? (dset (dset (dset (dset pars1
        "Phi1" (.num (v1/(v1+v2+v3+v4)))) "Phi2" (.num (v2/(v1+v2+v3+v4))))
        "Phi3" (.num (v3/(v1+v2+v3+v4)))) "Phi4" (.num (v4/(v1+v2+v3+v4))))
      "Phi4" = some (v4/(v1+v2+v3+v4)) := by
  refine ⟨?_, ?_, ?_, ?_⟩
  · rw [getQ?_dset_ne _ _ _ _ (by decide), getQ?_dset_ne _ _ _ _ (by decide),
      getQ?_dset_ne _ _ _ _ (by decide), getQ?_dset_self]
  · rw [getQ?_dset_ne _ _ _ _ (by decide), getQ?_dset_ne _ _ _ _ (by decide),
      getQ?_dset_self]
  · rw [getQ?_dset_ne _ _ _ _ (by decide), getQ?_dset_self]
  · rw [getQ?_dset_self]

theorem rpa_sum_div (v1 v2 v3 v4 : ℚ) (h : v1+v2+v3+v4 ≠ 0) :
    v1/(v1+v2+v3+v4) + v2/(v1+v2+v3+v4) + v3/(v1+v2+v3+v4)
      + v4/(v1+v2+v3+v4) = 1 := by
  rw [div_add_div_same, div_add_div_same, div_add_div_same, div_self h]

/-- Claim C7: on the rpa model, constrain_pars zeroes the fraction
parameters inapplicable to the case selector (Phi1 and Phi2 when
case_num is below 2, Phi1 when it is below 5) and renormalizes, so for
any positive pre-repair fractions the repaired fractions sum exactly
to 1. -/
theorem claim_C7_constrain_rpa {S : Type} (rgMax : ℚ → ℚ) (mi : ModelInfo S)
    (pars : Pars) (cn f1 f2 f3 f4 : ℚ)
    (hid : mi.id = "rpa")
    (hcn : getQ? pars "case_num" = some cn)
    (h1 : getQ? pars "Phi1" = some f1)
    (h2 : getQ? pars "Phi2" = some f2)
    (h3 : getQ? pars "Phi3" = some f3)
    (h4 : getQ? pars "Phi4" = some f4)
    (hp1 : 0 < f1) (hp2 : 0 < f2) (hp3 : 0 < f3) (hp4 : 0 < f4) :
    ∃ pars', constrain_pars rgMax mi pars = some pars'
      ∧ ∃ g1 g2 g3 g4,
          getQ? pars' "Phi1" = some g1 ∧ getQ? pars' "Phi2" = some g2
          ∧ getQ? pars' "Phi3" = some g3 ∧ getQ? pars' "Phi4" = some g4
          ∧ g1 + g2 + g3 + g4 = 1
          ∧ (cn < 2 → g1 = 0 ∧ g2 = 0)
          ∧ (2 ≤ cn → cn < 5 → g1 = 0) := by
  have pres : ∀ (k : String), strStartsWith k "M0:" = false →
      getQ? (if mi.iqIsPython then suppress_magnetism pars true else pars) k
        = getQ? pars k := by
    intro k hk
    by_cases hiq : mi.iqIsPython = true
    · simp only [if_pos hiq]
      exact getQ?_suppress_magnetism_true pars k hk
    · simp only [if_neg hiq]
  rcases lt_or_le cn 2 with hA | hge2
  · simp +decide only [constrain_pars, hid, if_false, if_true,
      pres "case_num" (by decide), hcn, hA,
      getQ?_dset_ne, getQ?_dset_self,
      pres "Phi3" (by decide), pres "Phi4" (by decide), h3, h4]
    refine ⟨_, rfl, 0/(0+0+f3+f4), 0/(0+0+f3+f4), f3/(0+0+f3+f4),
      f4/(0+0+f3+f4), ?_, ?_, ?_, ?_, ?_, ?_, ?_⟩
    · exact (rpa_renorm_lookup _ 0 0 f3 f4).1
    · exact (rpa_renorm_lookup _ 0 0 f3 f4).2.1
    · exact (rpa_renorm_lookup _ 0 0 f3 f4).2.2.1
    · exact (rpa_renorm_lookup _ 0 0 f3 f4).2.2.2
    · exact rpa_sum_div 0 0 f3 f4 (by positivity)
    · intro _
      constructor <;> simp
    · intro hge _
      linarith
  · rcases lt_or_le cn 5 with hB | hge5
    · simp +decide only [constrain_pars, hid, if_false, if_true,
        pres "case_num" (by decide), hcn, not_lt.mpr hge2, hB,
        getQ?_dset_ne, getQ?_dset_self,
        pres "Phi2" (by decide), pres "Phi3" (by decide),
        pres "Phi4" (by decide), h2, h3, h4]
      refine ⟨_, rfl, 0/(0+f2+f3+f4), f2/(0+f2+f3+f4), f3/(0+f2+f3+f4),
        f4/(0+f2+f3+f4), ?_, ?_, ?_, ?_, ?_, ?_, ?_⟩
      · exact (rpa_renorm_lookup _ 0 f2 f3 f4).1
      · exact (rpa_renorm_lookup _ 0 f2 f3 f4).2.1
      · exact (rpa_renorm_lookup _ 0 f2 f3 f4).2.2.1
      · exact (rpa_renorm_lookup _ 0 f2 f3 f4).2.2.2
      · exact rpa_sum_div 0 f2 f3 f4 (by positivity)
      · intro hlt
        exact hlt.elim
      · intro _ _
        simp
    · simp +decide only [constrain_pars, hid, if_false, if_true,
        pres "case_num" (by decide), hcn, not_lt.mpr hge2, not_lt.mpr hge5,
        pres "Phi1" (by decide), pres "Phi2" (by decide),
        pres "Phi3" (by decide), pres "Phi4" (by decide), h1, h2, h3, h4]
      refine ⟨_, rfl, f1/(f1+f2+f3+f4), f2/(f1+f2+f3+f4), f3/(f1+f2+f3+f4),
        f4/(f1+f2+f3+f4), ?_, ?_, ?_, ?_, ?_, ?_, ?_⟩
      · exact (rpa_renorm_lookup _ f1 f2 f3 f4).1
      · exact (rpa_renorm_lookup _ f1 f2 f3 f4).2.1
      · exact (rpa_renorm_lookup _ f1 f2 f3 f4).2.2.1
      · exact (rpa_renorm_lookup _ f1 f2 f3 f4).2.2.2
      · exact rpa_sum_div f1 f2 f3 f4 (by positivity)
      · intro hlt
        exact hlt.elim
      · intro _ hlt
        exact hlt.elim

/-- Claim C7 witness: the theorem on a concrete rpa parameter set with
case selector 0 and all four pre-repair fractions equal to 1. -/
theorem claim_C7_witness :
    ∃ pars', constrain_pars (fun _ => 0)
        (ModelInfo.mk (S := Unit) "rpa" [] false none)
        [("case_num", PVal.num 0), ("Phi1", PVal.num 1), ("Phi2", PVal.num 1),
         ("Phi3", PVal.num 1), ("Phi4", PVal.num 1)] = some pars'
      ∧ ∃ g1 g2 g3 g4,
          getQ? pars' "Phi1" = some g1 ∧ getQ? pars' "Phi2" = some g2
          ∧ getQ? pars' "Phi3" = some g3 ∧ getQ? pars' "Phi4" = some g4
          ∧ g1 + g2 + g3 + g4 = 1
          ∧ ((0 : ℚ) < 2 → g1 = 0 ∧ g2 = 0)
          ∧ ((2 : ℚ) ≤ 0 → (0 : ℚ) < 5 → g1 = 0) :=
  claim_C7_constrain_rpa (fun _ => 0)
    (ModelInfo.mk (S := Unit) "rpa" [] false none)
    [("case_num", PVal.num 0), ("Phi1", PVal.num 1), ("Phi2", PVal.num 1),
     ("Phi3", PVal.num 1), ("Phi4", PVal.num 1)]
    0 1 1 1 1 rfl (by decide) (by decide) (by decide) (by decide) (by decide)
    (by decide) (by decide) (by decide) (by decide)

/-! ### Claim C6: polydispersity activation branches -/

theorem strAppend_right_ne (a b suf : String) (h : a ≠ b) :
    a ++ suf ≠ b ++ suf := by
  intro hcon
  apply h
  have hdata : a.data ++ suf.data = b.data ++ suf.data := by
    have h2 := congrArg String.data hcon
    simpa [String.data_append] using h2
  exact String.ext (List.append_cancel_right hdata)

theorem random_pd_eq_two {S : Type} (R : RngOps S) (mi : ModelInfo S)
    (pars : Pars) (s : S) (u : ℚ) (s1 : S) (vol : List String)
    (i0 i1 : ℕ) (s2 s3 : S)
    (hu : R.rand s = (u, s1))
    (hcl : classify_pd pars (mi.kernel_parameters.filter fun p => p.polydisperse)
      = (vol, []))
    (h3 : 3 ≤ vol.length)
    (hc0 : R.choice vol.length s1 = (i0, s2))
    (hc1 : R.choice vol.length s2 = (i1, s3))
    (h86 : 86/100 ≤ u) (h99 : u < 99/100) :
    (_random_pd R mi pars s).1
      = dset (dset pars (vol.getD i0 "" ++ "_pd_n") (PVal.num 25))
          (vol.getD i1 "" ++ "_pd_n") (PVal.num 10) := by
  simp only [_random_pd, hu, hcl, hc0, hc1, List.isEmpty_nil]
  rw [if_neg (not_or.mpr ⟨by linarith, by omega⟩),
    if_neg (not_or.mpr ⟨by linarith, by omega⟩),
    if_pos (Or.inl h99)]
  simp [hc0, hc1]

theorem random_pd_eq_three {S : Type} (R : RngOps S) (mi : ModelInfo S)
    (pars : Pars) (s : S) (u : ℚ) (s1 : S) (vol : List String)
    (i0 i1 i2 : ℕ) (s2 s3 s4 : S)
    (hu : R.rand s = (u, s1))
    (hcl : classify_pd pars (mi.kernel_parameters.filter fun p => p.polydisperse)
      = (vol, []))
    (h3 : 3 ≤ vol.length)
    (hc0 : R.choice vol.length s1 = (i0, s2))
    (hc1 : R.choice vol.length s2 = (i1, s3))
    (hc2 : R.choice vol.length s3 = (i2, s4))
    (h99 : 99/100 ≤ u) :
    (_random_pd R mi pars s).1
      = dset (dset (dset pars (vol.getD i0 "" ++ "_pd_n") (PVal.num 25))
          (vol.getD i1 "" ++ "_pd_n") (PVal.num 10))
          (vol.getD i2 "" ++ "_pd_n") (PVal.num 5) := by
  simp only [_random_pd, hu, hcl, hc0, hc1, hc2, List.isEmpty_nil]
  rw [if_neg (not_or.mpr ⟨by linarith, by omega⟩),
    if_neg (not_or.mpr ⟨by linarith, by omega⟩),
    if_neg (not_or.mpr ⟨by linarith, by omega⟩)]
  simp [hc0, hc1, hc2]

theorem dget_orient_phase (D : Pars) (q1 q2 : Prop) [Decidable q1]
    [Decidable q2] (b : Bool) (k : String) (hk1 : k ≠ "theta_pd_n")
    (hk2 : k ≠ "phi_pd_n") (hk3 : k ≠ "psi_pd_n") :
    dget (if q2 then
        (if b then
          dset (if q1
              then dset (dset D "theta_pd_n" (PVal.num 20)) "phi_pd_n" (PVal.num 5)
              else dset D "theta_pd_n" (PVal.num 20)) "psi_pd_n" (PVal.num 5)
         else
          (if q1
              then dset (dset D "theta_pd_n" (PVal.num 20)) "phi_pd_n" (PVal.num 5)
              else dset D "theta_pd_n" (PVal.num 20)))
      else
        (if q1
            then dset (dset D "theta_pd_n" (PVal.num 20)) "phi_pd_n" (PVal.num 5)
            else dset D "theta_pd_n" (PVal.num 20))) k
      = dget D k := by
  have r1 : ∀ (P : Pars) (v : PVal), dget (dset P "theta_pd_n" v) k = dget P k :=
    fun P v => dget_dset_ne P _ k v (Ne.symm hk1)
  have r2 : ∀ (P : Pars) (v : PVal), dget (dset P "phi_pd_n" v) k = dget P k :=
    fun P v => dget_dset_ne P _ k v (Ne.symm hk2)
  have r3 : ∀ (P : Pars) (v : PVal), dget (dset P "psi_pd_n" v) k = dget P k :=
    fun P v => dget_dset_ne P _ k v (Ne.symm hk3)
  split_ifs <;> simp only [r1, r2, r3]

theorem random_pd_dget_two {S : Type} (R : RngOps S) (mi : ModelInfo S)
    (pars : Pars) (s : S) (u : ℚ) (s1 : S) (vol ori : List String)
    (i0 i1 : ℕ) (s2 s3 : S)
    (hu : R.rand s = (u, s1))
    (hcl : classify_pd pars (mi.kernel_parameters.filter fun p => p.polydisperse)
      = (vol, ori))
    (h3 : 3 ≤ vol.length)
    (hc0 : R.choice vol.length s1 = (i0, s2))
    (hc1 : R.choice vol.length s2 = (i1, s3))
    (h86 : 86/100 ≤ u) (h99 : u < 99/100)
    (k : String) (hk1 : k ≠ "theta_pd_n") (hk2 : k ≠ "phi_pd_n")
    (hk3 : k ≠ "psi_pd_n") :
    dget (_random_pd R mi pars s).1 k
      = dget (dset (dset pars (vol.getD i0 "" ++ "_pd_n") (PVal.num 25))
          (vol.getD i1 "" ++ "_pd_n") (PVal.num 10)) k := by
  have e1 : (u < 1/100 ∨ vol.length < 1) = False :=
    eq_false (not_or.mpr ⟨by linarith, by omega⟩)
  have e2 : (u < 86/100 ∨ vol.length < 2) = False :=
    eq_false (not_or.mpr ⟨by linarith, by omega⟩)
  have e3 : (u < 99/100 ∨ vol.length < 3) = True := eq_true (Or.inl h99)
  simp only [_random_pd, hu, hcl, hc0, hc1, e1, e2, e3, if_false, if_true]
  by_cases ho : ori.isEmpty
  · rw [if_pos ho]
  · rw [if_neg ho]
    exact dget_orient_phase _ _ _ _ k hk1 hk2 hk3

theorem random_pd_dget_three {S : Type} (R : RngOps S) (mi : ModelInfo S)
    (pars : Pars) (s : S) (u : ℚ) (s1 : S) (vol ori : List String)
    (i0 i1 i2 : ℕ) (s2 s3 s4 : S)
    (hu : R.rand s = (u, s1))
    (hcl : classify_pd pars (mi.kernel_parameters.filter fun p => p.polydisperse)
      = (vol, ori))
    (h3 : 3 ≤ vol.length)
    (hc0 : R.choice vol.length s1 = (i0, s2))
    (hc1 : R.choice vol.length s2 = (i1, s3))
    (hc2 : R.choice vol.length s3 = (i2, s4))
    (h99 : 99/100 ≤ u)
    (k : String) (hk1 : k ≠ "theta_pd_n") (hk2 : k ≠ "phi_pd_n")
    (hk3 : k ≠ "psi_pd_n") :
    dget (_random_pd R mi pars s).1 k
      = dget (dset (dset (dset pars (vol.getD i0 "" ++ "_pd_n") (PVal.num 25))
          (vol.getD i1 "" ++ "_pd_n") (PVal.num 10))
          (vol.getD i2 "" ++ "_pd_n") (PVal.num 5)) k := by
  have e1 : (u < 1/100 ∨ vol.length < 1) = False :=
    eq_false (not_or.mpr ⟨by linarith, by omega⟩)
  have e2 : (u < 86/100 ∨ vol.length < 2) = False :=
    eq_false (not_or.mpr ⟨by linarith, by omega⟩)
  have e3 : (u < 99/100 ∨ vol.length < 3) = False :=
    eq_false (not_or.mpr ⟨not_lt.mpr h99, by omega⟩)
  simp only [_random_pd, hu, hcl, hc0, hc1, hc2, e1, e2, e3, if_false, if_true]
  by_cases ho : ori.isEmpty
  · rw [if_pos ho]
  · rw [if_neg ho]
    exact dget_orient_phase _ _ _ _ k hk1 hk2 hk3

theorem getD_orient_ne (vol : List String) (i : ℕ)
    (hdisj : ∀ c ∈ vol, c ≠ "theta" ∧ c ≠ "phi" ∧ c ≠ "psi") :
    vol.getD i "" ≠ "theta" ∧ vol.getD i "" ≠ "phi" ∧ vol.getD i "" ≠ "psi" := by
  by_cases h : i < vol.length
  · rw [List.getD_eq_getElem _ _ h]
    exact hdisj _ (List.getElem_mem h)
  · rw [List.getD_eq_default _ _ (le_of_not_lt h)]
    exact ⟨by decide, by decide, by decide⟩

theorem key_ne_orient (c : String)
    (h : c ≠ "theta" ∧ c ≠ "phi" ∧ c ≠ "psi") :
    c ++ "_pd_n" ≠ "theta_pd_n" ∧ c ++ "_pd_n" ≠ "phi_pd_n"
      ∧ c ++ "_pd_n" ≠ "psi_pd_n" := by
  refine ⟨?_, ?_, ?_⟩
  · have e : ("theta" : String) ++ "_pd_n" = "theta_pd_n" := by decide
    rw [← e]
    exact strAppend_right_ne _ _ _ h.1
  · have e : ("phi" : String) ++ "_pd_n" = "phi_pd_n" := by decide
    rw [← e]
    exact strAppend_right_ne _ _ _ h.2.1
  · have e : ("psi" : String) ++ "_pd_n" = "psi_pd_n" := by decide
    rw [← e]
    exact strAppend_right_ne _ _ _ h.2.2

/-- Claim C6 counterexample: with three volume candidates a, b, c and a
uniform draw of 9/10 (so the two-candidate branch is taken), a
generator whose two choice draws both return index 0 makes the two
assignments land on the same candidate: a_pd_n is set to 25 and then
overwritten by 10, so no two distinct candidates hold 25 and 10.  This
refutes the clause that exactly two distinct candidates are activated:
np.random.choice draws with replacement, so the indices can repeat. -/
theorem claim_C6_counterexample :
    (rngDup.rand 0).1 = 9/10
    ∧ (86/100 : ℚ) ≤ 9/10 ∧ (9/10 : ℚ) < 99/100
    ∧ (classify_pd []
        (miVol3.kernel_parameters.filter fun p => p.polydisperse)).1
        = ["a", "b", "c"]
    ∧ ¬ activatesTwoDistinct ["a", "b", "c"] (_random_pd rngDup miVol3 [] 0).1 := by
  refine ⟨rfl, by norm_num, by norm_num, by decide, ?_⟩
  rw [random_pd_eq_two rngDup miVol3 [] 0 (9/10) 1 ["a", "b", "c"] 0 0 2 3
    rfl (by decide) (by decide) rfl rfl (by norm_num) (by norm_num)]
  decide

/-- Claim C6 (amended): for any model with at least 3 volume
candidates (with or without orientation-dispersion candidates; the
volume candidate names are assumed distinct from the reserved
orientation names theta, phi, psi, whose dispersion-count keys the
orientation step writes), when the uniform draw u satisfies
0.86 <= u < 0.99, two candidates are chosen by independent index draws
with replacement and assigned 25 and 10 points in that order, the
second assignment overwriting the first when the indices collide (so
the chosen candidate at the second draw always ends with 10 points, and
the one at the first draw ends with 25 points whenever the two chosen
names differ); when u >= 0.99, three candidates are chosen the same way
and assigned 25, 10, 5 points in order with later assignments winning
on collision. -/
theorem claim_C6_random_pd {S : Type} (R : RngOps S) (mi : ModelInfo S)
    (pars : Pars) (s : S) (u : ℚ) (s1 : S) (vol ori : List String)
    (i0 i1 i2 : ℕ) (s2 s3 s4 : S)
    (hu : R.rand s = (u, s1))
    (hcl : classify_pd pars (mi.kernel_parameters.filter fun p => p.polydisperse)
      = (vol, ori))
    (hdisj : ∀ c ∈ vol, c ≠ "theta" ∧ c ≠ "phi" ∧ c ≠ "psi")
    (h3 : 3 ≤ vol.length)
    (hc0 : R.choice vol.length s1 = (i0, s2))
    (hc1 : R.choice vol.length s2 = (i1, s3))
    (hc2 : R.choice vol.length s3 = (i2, s4)) :
    (86/100 ≤ u → u < 99/100 →
      dget (_random_pd R mi pars s).1 (vol.getD i1 "" ++ "_pd_n")
          = some (PVal.num 10)
      ∧ (vol.getD i0 "" ≠ vol.getD i1 "" →
          dget (_random_pd R mi pars s).1 (vol.getD i0 "" ++ "_pd_n")
            = some (PVal.num 25)))
    ∧ (99/100 ≤ u →
      dget (_random_pd R mi pars s).1 (vol.getD i2 "" ++ "_pd_n")
          = some (PVal.num 5)
      ∧ (vol.getD i1 "" ≠ vol.getD i2 "" →
          dget (_random_pd R mi pars s).1 (vol.getD i1 "" ++ "_pd_n")
            = some (PVal.num 10))
      ∧ (vol.getD i0 "" ≠ vol.getD i1 "" → vol.getD i0 "" ≠ vol.getD i2 "" →
          dget (_random_pd R mi pars s).1 (vol.getD i0 "" ++ "_pd_n")
            = some (PVal.num 25))) := by
  have hd0 := key_ne_orient _ (getD_orient_ne vol i0 hdisj)
  have hd1 := key_ne_orient _ (getD_orient_ne vol i1 hdisj)
  have hd2 := key_ne_orient _ (getD_orient_ne vol i2 hdisj)
  constructor
  · intro h86 h99
    constructor
    · rw [random_pd_dget_two R mi pars s u s1 vol ori i0 i1 s2 s3 hu hcl h3
        hc0 hc1 h86 h99 _ hd1.1 hd1.2.1 hd1.2.2]
      exact dget_dset_self _ _ _
    · intro hne
      rw [random_pd_dget_two R mi pars s u s1 vol ori i0 i1 s2 s3 hu hcl h3
        hc0 hc1 h86 h99 _ hd0.1 hd0.2.1 hd0.2.2,
        dget_dset_ne _ _ _ _ (strAppend_right_ne _ _ _ (Ne.symm hne))]
      exact dget_dset_self _ _ _
  · intro h99
    refine ⟨?_, fun hne => ?_, fun hne1 hne2 => ?_⟩
    · rw [random_pd_dget_three R mi pars s u s1 vol ori i0 i1 i2 s2 s3 s4 hu
        hcl h3 hc0 hc1 hc2 h99 _ hd2.1 hd2.2.1 hd2.2.2]
      exact dget_dset_self _ _ _
    · rw [random_pd_dget_three R mi pars s u s1 vol ori i0 i1 i2 s2 s3 s4 hu
        hcl h3 hc0 hc1 hc2 h99 _ hd1.1 hd1.2.1 hd1.2.2,
        dget_dset_ne _ _ _ _ (strAppend_right_ne _ _ _ (Ne.symm hne))]
      exact dget_dset_self _ _ _
    · rw [random_pd_dget_three R mi pars s u s1 vol ori i0 i1 i2 s2 s3 s4 hu
        hcl h3 hc0 hc1 hc2 h99 _ hd0.1 hd0.2.1 hd0.2.2,
        dget_dset_ne _ _ _ _ (strAppend_right_ne _ _ _ (Ne.symm hne2)),
        dget_dset_ne _ _ _ _ (strAppend_right_ne _ _ _ (Ne.symm hne1))]
      exact dget_dset_self _ _ _

/-- Claim C6 witness: the amended theorem on the parallelepiped-shaped
model, with three volume candidates plus orientation candidates theta
and phi, and index draws 1 and 2, which land 25 on candidate b and 10
on candidate c. -/
theorem claim_C6_witness :
    dget (_random_pd rngSeq miVol3Ori [] 0).1 ("c" ++ "_pd_n")
        = some (PVal.num 10)
    ∧ dget (_random_pd rngSeq miVol3Ori [] 0).1 ("b" ++ "_pd_n")
        = some (PVal.num 25) :=
  ⟨((claim_C6_random_pd rngSeq miVol3Ori [] 0 (9/10) 1 ["a", "b", "c"]
      ["theta", "phi"] 1 2 0 2 3 4 rfl (by decide) (by decide) (by decide)
      rfl rfl rfl).1 (by norm_num) (by norm_num)).1,
   ((claim_C6_random_pd rngSeq miVol3Ori [] 0 (9/10) 1 ["a", "b", "c"]
      ["theta", "phi"] 1 2 0 2 3 4 rfl (by decide) (by decide) (by decide)
      rfl rfl rfl).1 (by norm_num) (by norm_num)).2 (by decide)⟩

/-! ### Claim C9: deterministic sorted-order randomization -/

theorem sortPairs_eq_of_perm (p1 p2 : Pars) (hp : p1.Perm p2)
    (hnd : (p1.map Prod.fst).Nodup) : sortPairs p1 = sortPairs p2 := by
  haveI hTot : IsTotal (String × PVal) (fun a b => a.1 ≤ b.1) :=
    ⟨fun a b => le_total a.1 b.1⟩
  haveI hTrans : IsTrans (String × PVal) (fun a b => a.1 ≤ b.1) :=
    ⟨fun _ _ _ h1 h2 => le_trans h1 h2⟩
  haveI hAnti : IsAntisymm (String × PVal) (fun a b => a.1 < b.1) :=
    ⟨fun _ _ h1 h2 => absurd h1 (not_lt.mpr (le_of_lt h2))⟩
  have hperm1 : (sortPairs p1).Perm p1 := List.perm_insertionSort _ p1
  have hperm2 : (sortPairs p2).Perm p2 := List.perm_insertionSort _ p2
  have hpp : (sortPairs p1).Perm (sortPairs p2) :=
    hperm1.trans (hp.trans hperm2.symm)
  have hs1 : (sortPairs p1).Sorted (fun a b => a.1 ≤ b.1) :=
    List.sorted_insertionSort _ p1
  have hs2 : (sortPairs p2).Sorted (fun a b => a.1 ≤ b.1) :=
    List.sorted_insertionSort _ p2
  have hnd1 : ((sortPairs p1).map Prod.fst).Nodup :=
    ((hperm1.map Prod.fst).nodup_iff).mpr hnd
  have hnd2 : ((sortPairs p2).map Prod.fst).Nodup :=
    ((hperm2.map Prod.fst).nodup_iff).mpr (((hp.map Prod.fst).nodup_iff).mp hnd)
  have hstrict : ∀ (l : Pars), l.Sorted (fun a b => a.1 ≤ b.1) →
      (l.map Prod.fst).Nodup → l.Sorted (fun a b => a.1 < b.1) := by
    intro l hle hnd'
    have hne : l.Pairwise (fun a b => a.1 ≠ b.1) := List.pairwise_map.mp hnd'
    exact (hle.and hne).imp fun h => lt_of_le_of_ne h.1 h.2
  exact List.eq_of_perm_of_sorted hpp (hstrict _ hs1 hnd1) (hstrict _ hs2 hnd2)

/-- Claim C9: randomize_pars iterates the parameter entries in sorted
key order (the sorted key list is nondecreasing), so its result is a
function of the parameter set as a key-value mapping and of the
generator state alone: two runs from the same generator state on
parameter sets holding the same entries in any representation order
produce identical results. -/
theorem claim_C9_randomize_pars_deterministic {S : Type} (R : RngOps S)
    (mi : ModelInfo S) (p1 p2 : Pars) (s : S)
    (hp : p1.Perm p2) (hnd : (p1.map Prod.fst).Nodup) :
    randomize_pars R mi p1 s = randomize_pars R mi p2 s
    ∧ ((sortPairs p1).map Prod.fst).Sorted (· ≤ ·) := by
  constructor
  · unfold randomize_pars
    rw [sortPairs_eq_of_perm p1 p2 hp hnd]
  · haveI hTot : IsTotal (String × PVal) (fun a b => a.1 ≤ b.1) :=
      ⟨fun a b => le_total a.1 b.1⟩
    haveI hTrans : IsTrans (String × PVal) (fun a b => a.1 ≤ b.1) :=
      ⟨fun _ _ _ h1 h2 => le_trans h1 h2⟩
    exact List.pairwise_map.mpr (List.sorted_insertionSort _ p1)

/-- Claim C9 witness: the theorem on a two-entry parameter set given in
two representation orders, from generator state 0. -/
theorem claim_C9_witness :
    ([("b", PVal.num 1), ("a", PVal.num 2)] : Pars).Perm
        [("a", PVal.num 2), ("b", PVal.num 1)]
    ∧ randomize_pars rngDup miVol3 [("b", PVal.num 1), ("a", PVal.num 2)] 0
        = randomize_pars rngDup miVol3 [("a", PVal.num 2), ("b", PVal.num 1)] 0 :=
  ⟨List.Perm.swap _ _ _,
   (claim_C9_randomize_pars_deterministic rngDup miVol3
      [("b", PVal.num 1), ("a", PVal.num 2)]
      [("a", PVal.num 2), ("b", PVal.num 1)] 0
      (List.Perm.swap _ _ _) (by decide)).1⟩

end SasCompare
